import Mathlib

/-!
Verification development for the CBOR codec in src/cbor.rs of this
repository.  The Rust code is embedded shallowly: machine integers become
Nat or Int with explicit bounds, byte buffers become List Nat, the byte
source becomes an explicit List Nat threaded through each function, and
fallible code returns Except.  Rust panics (copy_from_slice length
mismatch, checked arithmetic overflow in debug builds, unreachable) are
modelled as the distinguished error value Err.panicked.  Recursive loops
carry an explicit fuel parameter, an artifact of the embedding; fuel
exhaustion is the distinguished value Err.fuelOut, never used to settle a
claim.
-/

/-- Outcomes of fallible operations.  The first five mirror the error
variants used by cbor.rs (IOError, FailCbor, FailConvert, FailKey, Fatal);
panicked models a Rust panic; fuelOut is an embedding artifact. -/
inductive Err where
  | ioError
  | failCbor
  | failConvert
  | failKey
  | fatal
  | panicked
  | fuelOut
deriving DecidableEq, Repr

/-- Info: the 5-bit additional-information descriptor (enum Info in
cbor.rs).  tiny carries an embedded value 0..=23 as written in the
source; u8/u16/u32/u64 select 1/2/4/8 trailing bytes. -/
inductive Info where
  | tiny (v : Nat)
  | u8
  | u16
  | u32
  | u64
  | reserved28
  | reserved29
  | reserved30
  | indefinite
deriving DecidableEq, Repr

/-- SimpleValue: major-7 payloads (enum SimpleValue in cbor.rs).  The f16
variant stores the raw u16, f32/f64 store the raw big-endian byte
payload, which is faithful because the code only moves those bytes with
to_be_bytes / from_be_bytes and never computes with the floats. -/
inductive SimpleValue where
  | unassigned
  | tru
  | fls
  | null
  | undefined
  | reserved24 (b : Nat)
  | f16 (v : Nat)
  | f32 (bs : List Nat)
  | f64 (bs : List Nat)
  | brk
deriving DecidableEq, Repr

/-- Tag: major-6 payload (enum Tag in cbor.rs), a bare numeric id. -/
inductive Tag where
  | value (v : Nat)
deriving DecidableEq, Repr

/-- Key: the restricted map-key type (enum Key in cbor.rs).  A Rust
String is modelled by its UTF-8 byte list, so Key.text carries bytes and
the length used by the code (byte length) is List.length. -/
inductive Key where
  | u64 (v : Nat)
  | n64 (v : Int)
  | bytes (bs : List Nat)
  | text (bs : List Nat)
  | bool (b : Bool)
  | f32 (bs : List Nat)
  | f64 (bs : List Nat)
deriving DecidableEq, Repr

/-- Cbor: the value tree (enum Cbor in cbor.rs). -/
inductive Cbor where
  | major0 (i : Info) (v : Nat)
  | major1 (i : Info) (v : Nat)
  | major2 (i : Info) (bs : List Nat)
  | major3 (i : Info) (bs : List Nat)
  | major4 (i : Info) (xs : List Cbor)
  | major5 (i : Info) (xs : List (Key × Cbor))
  | major6 (i : Info) (t : Tag)
  | major7 (i : Info) (s : SimpleValue)

/-- Value of a byte list read big-endian, as u64::from_be_bytes and
friends do (each element is masked to a byte). -/
def beVal (bs : List Nat) : Nat :=
  bs.foldl (fun a b => a * 256 + b % 256) 0

/-- Big-endian bytes of n, w bytes wide, as to_be_bytes produces. -/
def beBytes : Nat → Nat → List Nat
  | 0, _ => []
  | w + 1, n => beBytes w (n / 256) ++ [n % 256]

/-- Model of Read::read into a zero-initialised buffer of length n over a
byte-slice source: it fills min(n, available) bytes and leaves the rest
of the buffer zero, returning Ok with the count.  cbor.rs ignores the
count, so only the resulting buffer and the advanced source matter.  On a
slice source this read never returns Err. -/
def readBytes (r : List Nat) (n : Nat) : List Nat × List Nat :=
  (r.take n ++ List.replicate (n - r.length) 0, r.drop n)

/-- Model of slice copy_from_slice: the destination is overwritten by the
source when the lengths agree, otherwise Rust panics. -/
def copyFromSlice (dst src : List Nat) : Except Err (List Nat) :=
  if dst.length = src.length then .ok src else .error .panicked

/-- TryFrom of u8 for Info in cbor.rs. -/
def infoOfCode (b : Nat) : Except Err Info :=
  if b ≤ 23 then .ok (.tiny b)
  else if b = 24 then .ok .u8
  else if b = 25 then .ok .u16
  else if b = 26 then .ok .u32
  else if b = 27 then .ok .u64
  else if b = 28 then .ok .reserved28
  else if b = 29 then .ok .reserved29
  else if b = 30 then .ok .reserved30
  else if b = 31 then .ok .indefinite
  else .error .fatal

/-- From of u64 for Info in cbor.rs: minimal width class for a number. -/
def infoOfU64 (n : Nat) : Info :=
  if n ≤ 23 then .tiny n
  else if n ≤ 255 then .u8
  else if n ≤ 65535 then .u16
  else if n ≤ 4294967295 then .u32
  else .u64

/-- encode_hdr in cbor.rs: push the single header byte
(major shifted left 5, or-ed with the 5-bit code). -/
def encode_hdr (major : Nat) (info : Info) (buf : List Nat) :
    Except Err (List Nat × Nat) := do
  let code ←
    match info with
    | .tiny v => if v ≤ 23 then pure v else .error .failCbor
    | .u8 => pure 24
    | .u16 => pure 25
    | .u32 => pure 26
    | .u64 => pure 27
    | .reserved28 => pure 28
    | .reserved29 => pure 29
    | .reserved30 => pure 30
    | .indefinite => pure 31
  .ok (buf ++ [major * 32 % 256 + code], 1)

/-- decode_hdr in cbor.rs: read one byte into a zeroed scratch (a short
read leaves the scratch byte 0), split top 3 bits and bottom 5 bits. -/
def decode_hdr (r : List Nat) : Except Err ((Nat × Info) × List Nat) := do
  let (data, r2) := readBytes r 1
  let b := data.headD 0
  let info ← infoOfCode (b % 32)
  .ok ((b % 256 / 32, info), r2)

/-- encode_addnl in cbor.rs.  The source copies to_be_bytes of the 1, 2
or 4 byte narrowing into the full 8-byte scratch with copy_from_slice,
which panics on the length mismatch; it then copies the n-byte prefix of
scratch into buf with copy_from_slice, which panics unless buf already
has exactly length n. -/
def encode_addnl (num : Nat) (buf : List Nat) : Except Err (List Nat × Nat) := do
  let scratch : List Nat := List.replicate 8 0
  let (scratch, n) ←
    if num ≤ 23 then
      pure (scratch, 0)
    else if num ≤ 255 then do
      let s ← copyFromSlice scratch (beBytes 1 num)
      pure (s, 1)
    else if num ≤ 65535 then do
      let s ← copyFromSlice scratch (beBytes 2 num)
      pure (s, 2)
    else if num ≤ 4294967295 then do
      let s ← copyFromSlice scratch (beBytes 4 num)
      pure (s, 4)
    else do
      let s ← copyFromSlice scratch (beBytes 8 num)
      pure (s, 8)
  let buf ← copyFromSlice buf (scratch.take n)
  .ok (buf, n)

/-- decode_addnl in cbor.rs: an embedded tiny value reads nothing, a
width class reads that many big-endian bytes (a short read zero-pads as
readBytes does), Indefinite yields 0 and reserved codes fail. -/
def decode_addnl (info : Info) (r : List Nat) : Except Err (Nat × List Nat) :=
  match info with
  | .tiny n => .ok (n, r)
  | .u8 => let (d, r2) := readBytes r 1; .ok (beVal d, r2)
  | .u16 => let (d, r2) := readBytes r 2; .ok (beVal d, r2)
  | .u32 => let (d, r2) := readBytes r 4; .ok (beVal d, r2)
  | .u64 => let (d, r2) := readBytes r 8; .ok (beVal d, r2)
  | .indefinite => .ok (0, r)
  | _ => .error .failCbor

/-- SimpleValue::encode in cbor.rs: fixed payloads copied through the
8-byte scratch; the f16 and f32 scratch copies panic on length mismatch,
and the final prefix copy into buf panics unless buf has length n. -/
def SimpleValue.encode (sv : SimpleValue) (buf : List Nat) :
    Except Err (List Nat × Nat) := do
  let scratch : List Nat := List.replicate 8 0
  let (scratch, n) ←
    match sv with
    | .tru | .fls | .null | .undefined | .brk | .unassigned => pure (scratch, 0)
    | .reserved24 b => pure (scratch.set 0 b, 1)
    | .f16 v => do
      let s ← copyFromSlice scratch (beBytes 2 v)
      pure (s, 2)
    | .f32 bs => do
      let s ← copyFromSlice scratch bs
      pure (s, 4)
    | .f64 bs => do
      let s ← copyFromSlice scratch bs
      pure (s, 8)
  let buf ← copyFromSlice buf (scratch.take n)
  .ok (buf, n)

/-- SimpleValue::decode in cbor.rs.  Note the source maps Info::Indefinite
to a FailCbor error (message simple-value-break) and never constructs the
Break variant. -/
def SimpleValue.decode (info : Info) (r : List Nat) :
    Except Err (SimpleValue × List Nat) :=
  match info with
  | .tiny 20 => .ok (.tru, r)
  | .tiny 21 => .ok (.fls, r)
  | .tiny 22 => .ok (.null, r)
  | .tiny 23 => .error .failCbor
  | .tiny _ => .error .failCbor
  | .u8 => .error .failCbor
  | .u16 => .error .failCbor
  | .u32 => let (d, r2) := readBytes r 4; .ok (.f32 d, r2)
  | .u64 => let (d, r2) := readBytes r 8; .ok (.f64 d, r2)
  | .reserved28 => .error .failCbor
  | .reserved29 => .error .failCbor
  | .reserved30 => .error .failCbor
  | .indefinite => .error .failCbor

/-- Tag::encode in cbor.rs. -/
def Tag.encode (t : Tag) (buf : List Nat) : Except Err (List Nat × Nat) :=
  match t with
  | .value v => encode_addnl v buf

/-- Tag::decode in cbor.rs. -/
def Tag.decode (info : Info) (r : List Nat) : Except Err (Tag × List Nat) := do
  let (n, r2) ← decode_addnl info r
  .ok (.value n, r2)

/-- TryFrom of SimpleValue for Cbor in cbor.rs. -/
def svalToCbor (sv : SimpleValue) : Except Err Cbor :=
  match sv with
  | .unassigned => .error .failConvert
  | .tru => .ok (.major7 (.tiny 20) .tru)
  | .fls => .ok (.major7 (.tiny 21) .fls)
  | .null => .ok (.major7 (.tiny 22) .null)
  | .undefined => .error .failConvert
  | .reserved24 _ => .error .failConvert
  | .f16 _ => .error .failConvert
  | .f32 bs => .ok (.major7 .u32 (.f32 bs))
  | .f64 bs => .ok (.major7 .u64 (.f64 bs))
  | .brk => .error .failConvert

/-- The i64 minimum, for the overflow checks of the Key conversions. -/
def i64Min : Int := -(2 ^ 63)

/-- TryFrom of Key for Cbor in cbor.rs.  For a negative n64 the source
computes key.abs() - 1 in i64 arithmetic: abs overflows (panics) exactly
at i64::MIN; otherwise the result is nonnegative and the u64 conversion
succeeds.  Lengths convert to u64 infallibly on a 64-bit platform. -/
def cborOfKey : Key → Except Err Cbor
  | .u64 k => .ok (.major0 (infoOfU64 k) k)
  | .n64 k =>
    if 0 ≤ k then
      .ok (.major0 (infoOfU64 k.toNat) k.toNat)
    else do
      let a ← if k = i64Min then .error .panicked else pure (-k)
      let v := (a - 1).toNat
      .ok (.major1 (infoOfU64 v) v)
  | .bytes bs => .ok (.major2 (infoOfU64 bs.length) bs)
  | .text bs => .ok (.major3 (infoOfU64 bs.length) bs)
  | .bool true => svalToCbor .tru
  | .bool false => svalToCbor .fls
  | .f32 bs => svalToCbor (.f32 bs)
  | .f64 bs => svalToCbor (.f64 bs)

/-- Model of the UTF-8 validity check done by std str::from_utf8
(RFC 3629 ranges), used by the Cbor-to-Key conversion for text. -/
def contB (b : Nat) : Bool := 0x80 ≤ b && b ≤ 0xBF

/-- Model of std str::from_utf8 validity over a byte list. -/
def validUtf8 : List Nat → Bool
  | [] => true
  | b :: rest =>
    if b ≤ 0x7F then validUtf8 rest
    else if 0xC2 ≤ b && b ≤ 0xDF then
      match rest with
      | c1 :: rest2 => contB c1 && validUtf8 rest2
      | [] => false
    else if 0xE0 ≤ b && b ≤ 0xEF then
      match rest with
      | c1 :: c2 :: rest2 =>
        (if b = 0xE0 then 0xA0 ≤ c1 && c1 ≤ 0xBF
         else if b = 0xED then 0x80 ≤ c1 && c1 ≤ 0x9F
         else contB c1) && contB c2 && validUtf8 rest2
      | _ => false
    else if 0xF0 ≤ b && b ≤ 0xF4 then
      match rest with
      | c1 :: c2 :: c3 :: rest2 =>
        (if b = 0xF0 then 0x90 ≤ c1 && c1 ≤ 0xBF
         else if b = 0xF4 then 0x80 ≤ c1 && c1 ≤ 0x8F
         else contB c1) && contB c2 && contB c3 && validUtf8 rest2
      | _ => false
    else false

/-- TryFrom of Cbor for Key in cbor.rs.  For major1 the source computes
key + 1 in u64 arithmetic (overflow panics at u64::MAX) and then
i64::try_from, which fails above i64::MAX. -/
def keyOfCbor : Cbor → Except Err Key
  | .major0 _ k => .ok (.u64 k)
  | .major1 _ k => do
    let s ← if k + 1 < 2 ^ 64 then pure (k + 1) else .error .panicked
    let i ← if s ≤ 2 ^ 63 - 1 then pure (s : Int) else .error .failConvert
    .ok (.n64 (-i))
  | .major2 _ bs => .ok (.bytes bs)
  | .major3 _ bs => if validUtf8 bs then .ok (.text bs) else .error .failConvert
  | .major7 _ .tru => .ok (.bool true)
  | .major7 _ .fls => .ok (.bool false)
  | .major7 _ (.f32 bs) => .ok (.f32 bs)
  | .major7 _ (.f64 bs) => .ok (.f64 bs)
  | _ => .error .failKey

/-- RECURSION_LIMIT in cbor.rs. -/
def RECURSION_LIMIT : Nat := 1000

/-! The decoder: Cbor::do_decode in cbor.rs.  The indefinite arms loop at
the same Rust recursion depth; here every step consumes one unit of fuel
so the recursion is structural on fuel, while depth mirrors the source
depth counter checked against RECURSION_LIMIT. -/

mutual

/-- Cbor::do_decode in cbor.rs, fuel-indexed. -/
def do_decode : Nat → Nat → List Nat → Except Err (Cbor × List Nat)
  | 0, _, _ => .error .fuelOut
  | fuel + 1, depth, r =>
    if depth > RECURSION_LIMIT then .error .failCbor
    else
      match decode_hdr r with
      | .error e => .error e
      | .ok ((major, info), r) =>
        match major, info with
        | 0, info =>
          match decode_addnl info r with
          | .ok (n, r) => .ok (.major0 info n, r)
          | .error e => .error e
        | 1, info =>
          match decode_addnl info r with
          | .ok (n, r) => .ok (.major1 info n, r)
          | .error e => .error e
        | 2, .indefinite =>
          match loopBytes fuel depth r [] with
          | .ok (data, r) => .ok (.major2 .indefinite data, r)
          | .error e => .error e
        | 2, info =>
          match decode_addnl info r with
          | .ok (n, r) =>
            let (data, r) := readBytes r n
            .ok (.major2 info data, r)
          | .error e => .error e
        | 3, .indefinite =>
          match loopText fuel depth r [] with
          | .ok (data, r) => .ok (.major3 .indefinite data, r)
          | .error e => .error e
        | 3, info =>
          match decode_addnl info r with
          | .ok (n, r) =>
            let (data, r) := readBytes r n
            .ok (.major3 info data, r)
          | .error e => .error e
        | 4, .indefinite =>
          match loopList fuel depth r [] with
          | .ok (xs, r) => .ok (.major4 .indefinite xs, r)
          | .error e => .error e
        | 4, info =>
          match decode_addnl info r with
          | .ok (n, r) =>
            match loopListN fuel n depth r [] with
            | .ok (xs, r) => .ok (.major4 info xs, r)
            | .error e => .error e
          | .error e => .error e
        | 5, .indefinite =>
          match loopMap fuel depth r [] with
          | .ok (xs, r) => .ok (.major5 .indefinite xs, r)
          | .error e => .error e
        | 5, info =>
          match decode_addnl info r with
          | .ok (n, r) =>
            match loopMapN fuel n depth r [] with
            | .ok (xs, r) => .ok (.major5 info xs, r)
            | .error e => .error e
          | .error e => .error e
        | 6, info =>
          match Tag.decode info r with
          | .ok (t, r) => .ok (.major6 info t, r)
          | .error e => .error e
        | 7, info =>
          match SimpleValue.decode info r with
          | .ok (s, r) => .ok (.major7 info s, r)
          | .error e => .error e
        | _, _ => .error .panicked
  termination_by structural fuel _ _ => fuel

/-- The indefinite byte-string loop of do_decode (major 2): chunks are
appended, a decoded Break ends the loop, anything else is a conversion
error.  Since SimpleValue.decode never produces Break, the second arm is
unreachable in practice; it is kept to mirror the source. -/
def loopBytes : Nat → Nat → List Nat → List Nat → Except Err (List Nat × List Nat)
  | 0, _, _, _ => .error .fuelOut
  | fuel + 1, depth, r, acc =>
    match do_decode fuel (depth + 1) r with
    | .ok (.major2 _ chunk, r) => loopBytes fuel depth r (acc ++ chunk)
    | .ok (.major7 _ .brk, r) => .ok (acc, r)
    | .ok _ => .error .failConvert
    | .error e => .error e
  termination_by structural fuel _ _ _ => fuel

/-- The indefinite text loop of do_decode (major 3). -/
def loopText : Nat → Nat → List Nat → List Nat → Except Err (List Nat × List Nat)
  | 0, _, _, _ => .error .fuelOut
  | fuel + 1, depth, r, acc =>
    match do_decode fuel (depth + 1) r with
    | .ok (.major3 _ chunk, r) => loopText fuel depth r (acc ++ chunk)
    | .ok (.major7 _ .brk, r) => .ok (acc, r)
    | .ok _ => .error .failConvert
    | .error e => .error e
  termination_by structural fuel _ _ _ => fuel

/-- The indefinite list loop of do_decode (major 4). -/
def loopList : Nat → Nat → List Nat → List Cbor → Except Err (List Cbor × List Nat)
  | 0, _, _, _ => .error .fuelOut
  | fuel + 1, depth, r, acc =>
    match do_decode fuel (depth + 1) r with
    | .ok (.major7 _ .brk, r) => .ok (acc, r)
    | .ok (item, r) => loopList fuel depth r (acc ++ [item])
    | .error e => .error e
  termination_by structural fuel _ _ _ => fuel

/-- The definite list loop of do_decode (major 4, count n). -/
def loopListN : Nat → Nat → Nat → List Nat → List Cbor →
    Except Err (List Cbor × List Nat)
  | 0, _, _, _, _ => .error .fuelOut
  | _ + 1, 0, _, r, acc => .ok (acc, r)
  | fuel + 1, n + 1, depth, r, acc =>
    match do_decode fuel (depth + 1) r with
    | .ok (x, r) => loopListN fuel n depth r (acc ++ [x])
    | .error e => .error e
  termination_by structural fuel _ _ _ _ => fuel

/-- The indefinite map loop of do_decode (major 5): a key-position item
is converted to Key first; only a Break decoded at the value position
would end the loop, dropping the dangling key. -/
def loopMap : Nat → Nat → List Nat → List (Key × Cbor) →
    Except Err (List (Key × Cbor) × List Nat)
  | 0, _, _, _ => .error .fuelOut
  | fuel + 1, depth, r, acc =>
    match do_decode fuel (depth + 1) r with
    | .error e => .error e
    | .ok (kc, r) =>
      match keyOfCbor kc with
      | .error e => .error e
      | .ok key =>
        match do_decode fuel (depth + 1) r with
        | .error e => .error e
        | .ok (.major7 _ .brk, r) => .ok (acc, r)
        | .ok (v, r) => loopMap fuel depth r (acc ++ [(key, v)])
  termination_by structural fuel _ _ _ => fuel

/-- The definite map loop of do_decode (major 5, count n). -/
def loopMapN : Nat → Nat → Nat → List Nat → List (Key × Cbor) →
    Except Err (List (Key × Cbor) × List Nat)
  | 0, _, _, _, _ => .error .fuelOut
  | _ + 1, 0, _, r, acc => .ok (acc, r)
  | fuel + 1, n + 1, depth, r, acc =>
    match do_decode fuel (depth + 1) r with
    | .error e => .error e
    | .ok (kc, r) =>
      match keyOfCbor kc with
      | .error e => .error e
      | .ok key =>
        match do_decode fuel (depth + 1) r with
        | .error e => .error e
        | .ok (v, r) => loopMapN fuel n depth r (acc ++ [(key, v)])
  termination_by structural fuel _ _ _ _ => fuel

end

/-! The encoder: Cbor::do_encode in cbor.rs, fuel-indexed (the Rust
recursion is bounded by the structure and the depth check; fuel is an
embedding artifact). -/

mutual

/-- Cbor::do_encode in cbor.rs. -/
def do_encode : Nat → Cbor → List Nat → Nat → Except Err (List Nat × Nat)
  | 0, _, _, _ => .error .fuelOut
  | fuel + 1, c, buf, depth =>
    if depth > RECURSION_LIMIT then .error .failCbor
    else
      match c with
      | .major0 info num => do
        let (buf, n) ← encode_hdr 0 info buf
        let (buf, m) ← encode_addnl num buf
        .ok (buf, n + m)
      | .major1 info num => do
        let (buf, n) ← encode_hdr 1 info buf
        let (buf, m) ← encode_addnl num buf
        .ok (buf, n + m)
      | .major2 info bs => do
        let (buf, n) ← encode_hdr 2 info buf
        let (buf, m) ← encode_addnl bs.length buf
        let buf ← copyFromSlice buf bs
        .ok (buf, n + m + bs.length)
      | .major3 info bs => do
        let (buf, n) ← encode_hdr 3 info buf
        let (buf, m) ← encode_addnl bs.length buf
        let buf ← copyFromSlice buf bs
        .ok (buf, n + m + bs.length)
      | .major4 info xs => do
        let (buf, n) ← encode_hdr 4 info buf
        let (buf, m) ← encode_addnl xs.length buf
        let (buf, acc) ← encodeList fuel xs buf (depth + 1)
        .ok (buf, n + m + acc)
      | .major5 info xs => do
        let (buf, n) ← encode_hdr 5 info buf
        let (buf, m) ← encode_addnl xs.length buf
        let (buf, acc) ← encodeMap fuel xs buf (depth + 1)
        .ok (buf, n + m + acc)
      | .major6 info t => do
        let (buf, n) ← encode_hdr 6 info buf
        let (buf, m) ← Tag.encode t buf
        .ok (buf, n + m)
      | .major7 info s => do
        let (buf, n) ← encode_hdr 7 info buf
        let (buf, m) ← SimpleValue.encode s buf
        .ok (buf, n + m)

/-- The element loop of do_encode for lists: each element is encoded at
the incremented depth and the written counts are summed. -/
def encodeList : Nat → List Cbor → List Nat → Nat → Except Err (List Nat × Nat)
  | 0, _, _, _ => .error .fuelOut
  | _ + 1, [], buf, _ => .ok (buf, 0)
  | fuel + 1, x :: xs, buf, depth => do
    let (buf, a) ← do_encode fuel x buf depth
    let (buf, b) ← encodeList fuel xs buf depth
    .ok (buf, a + b)

/-- The pair loop of do_encode for maps: the key is converted to Cbor and
encoded, then the value, both at the incremented depth. -/
def encodeMap : Nat → List (Key × Cbor) → List Nat → Nat →
    Except Err (List Nat × Nat)
  | 0, _, _, _ => .error .fuelOut
  | _ + 1, [], buf, _ => .ok (buf, 0)
  | fuel + 1, (k, v) :: xs, buf, depth => do
    let kc ← cborOfKey k
    let (buf, a) ← do_encode fuel kc buf depth
    let (buf, b) ← do_encode fuel v buf depth
    let (buf, c) ← encodeMap fuel xs buf depth
    .ok (buf, a + b + c)

end

/-- Cbor::encode in cbor.rs: entry depth is 1. -/
def encode (fuel : Nat) (c : Cbor) (buf : List Nat) : Except Err (List Nat × Nat) :=
  do_encode fuel c buf 1

/-- Cbor::decode in cbor.rs: entry depth is 1. -/
def decode (fuel : Nat) (r : List Nat) : Except Err (Cbor × List Nat) :=
  do_decode fuel 1 r

/-- A list nested to the given number of wrappers around an empty list:
nestedCbor k has k + 1 list levels. -/
def nestedCbor : Nat → Cbor
  | 0 => .major4 (.tiny 0) []
  | k + 1 => .major4 (.tiny 1) [nestedCbor k]

/-! Claim theorems. -/

/-- Claim C1 (code bug): the claimed decode-encode roundtrip cannot hold
because encoding panics on every value: after encode_hdr pushes the
header byte, encode_addnl calls copy_from_slice on a buffer whose length
does not match the source slice, which is a Rust panic.  Shown here for
the unsigned integer 0 and a one-byte byte-string. -/
theorem c1_encode_breaks_roundtrip :
    do_encode 8 (.major0 (.tiny 0) 0) [] 1 = .error .panicked
    ∧ do_encode 8 (.major2 (.tiny 1) [0xAB]) [] 1 = .error .panicked :=
  ⟨rfl, rfl⟩

/-- Claim C2 (code bug): decoding any indefinite-length aggregate fails,
for bytes, text, lists and maps alike and for zero, one or five chunks,
because SimpleValue.decode rejects the Indefinite descriptor instead of
producing Break, so the loops never see their terminator.  The definite
counterparts decode fine. -/
theorem c2_indefinite_decode_fails :
    do_decode 8 1 [0x5F, 0xFF] = .error .failCbor
    ∧ do_decode 8 1 [0x7F, 0xFF] = .error .failCbor
    ∧ do_decode 8 1 [0x9F, 0xFF] = .error .failCbor
    ∧ do_decode 8 1 [0xBF, 0xFF] = .error .failCbor
    ∧ do_decode 8 1 [0x5F, 0x41, 0xAB, 0xFF] = .error .failCbor
    ∧ do_decode 16 1 [0x5F, 0x41, 1, 0x41, 2, 0x41, 3, 0x41, 4, 0x41, 5, 0xFF] =
        .error .failCbor
    ∧ do_decode 8 1 [0x40] = .ok (.major2 (.tiny 0) [], [])
    ∧ do_decode 8 1 [0x60] = .ok (.major3 (.tiny 0) [], [])
    ∧ do_decode 8 1 [0x80] = .ok (.major4 (.tiny 0) [], [])
    ∧ do_decode 8 1 [0xA0] = .ok (.major5 (.tiny 0) [], []) :=
  ⟨rfl, rfl, rfl, rfl, rfl, rfl, rfl, rfl, rfl, rfl⟩

/-- Claim C3 (code bug): the decode halves of the literal vectors hold
(0x80 decodes to the empty list, a lone 0xFF fails), but every encode
half panics in encode_addnl rather than producing the claimed bytes:
unsigned 23 should give 0x17, unsigned 24 should give 0x18 0x18, the text
IT should give 0x62 0x49 0x54, the empty list should give 0x80. -/
theorem c3_literal_vectors :
    do_encode 8 (.major0 (.tiny 23) 23) [] 1 = .error .panicked
    ∧ do_encode 8 (.major0 .u8 24) [] 1 = .error .panicked
    ∧ do_encode 8 (.major3 (.tiny 2) [0x49, 0x54]) [] 1 = .error .panicked
    ∧ do_encode 8 (.major4 (.tiny 0) []) [] 1 = .error .panicked
    ∧ do_decode 8 1 [0x80] = .ok (.major4 (.tiny 0) [], [])
    ∧ do_decode 8 1 [0xFF] = .error .failCbor :=
  ⟨rfl, rfl, rfl, rfl, rfl, rfl⟩

/-- Claim C4 (code bug): a short read does not fail the decode.  The
source calls Read::read and ignores the returned count, so a truncated
input is silently zero-padded: a text header announcing two bytes with
only one available decodes successfully to the payload 0x49 0x00, a
u16 additional value with one byte available reads 256, and even the
empty input decodes to unsigned 0 (the header byte is the untouched
zeroed scratch). -/
theorem c4_short_read_no_error :
    do_decode 8 1 [0x62, 0x49] = .ok (.major3 (.tiny 2) [0x49, 0], [])
    ∧ do_decode 8 1 [0x19, 0x01] = .ok (.major0 .u16 256, [])
    ∧ do_decode 8 1 [] = .ok (.major0 (.tiny 0) 0, []) :=
  ⟨rfl, rfl, rfl⟩

/-- Claim C5 counterexample: decode_addnl applied to the Indefinite
descriptor does not fail as the claim states; it returns 0 and reads
nothing. -/
theorem c5_indefinite_not_error : decode_addnl .indefinite [] = .ok (0, []) := rfl

/-- Claim C5 (amended): decode_addnl returns the embedded tiny value
without reading, reads exactly 1, 2, 4 or 8 big-endian bytes for the
width-class descriptors, fails for the three reserved descriptors, and
returns 0 without reading for the Indefinite descriptor. -/
theorem c5_decode_addnl :
    (∀ (v : Nat) (r : List Nat), decode_addnl (.tiny v) r = .ok (v, r))
    ∧ (∀ (bs r : List Nat), bs.length = 1 →
        decode_addnl .u8 (bs ++ r) = .ok (beVal bs, r))
    ∧ (∀ (bs r : List Nat), bs.length = 2 →
        decode_addnl .u16 (bs ++ r) = .ok (beVal bs, r))
    ∧ (∀ (bs r : List Nat), bs.length = 4 →
        decode_addnl .u32 (bs ++ r) = .ok (beVal bs, r))
    ∧ (∀ (bs r : List Nat), bs.length = 8 →
        decode_addnl .u64 (bs ++ r) = .ok (beVal bs, r))
    ∧ (∀ r : List Nat, decode_addnl .reserved28 r = .error .failCbor)
    ∧ (∀ r : List Nat, decode_addnl .reserved29 r = .error .failCbor)
    ∧ (∀ r : List Nat, decode_addnl .reserved30 r = .error .failCbor)
    ∧ (∀ r : List Nat, decode_addnl .indefinite r = .ok (0, r)) := by
  refine ⟨fun v r => rfl, ?_, ?_, ?_, ?_, fun r => rfl, fun r => rfl, fun r => rfl,
    fun r => rfl⟩
  all_goals
    intro bs r h
    have hz : bs.length - (bs.length + r.length) = 0 := by omega
    simp only [decode_addnl, readBytes]
    rw [← h, List.take_left, List.drop_left]
    simp [List.length_append, hz]

/-- Claim C5 witness: the u16 width class over the bytes 0x01 0x02
followed by a leftover byte reads exactly two bytes and yields 258. -/
theorem c5_decode_addnl_witness :
    decode_addnl .u16 [1, 2, 9] = .ok (258, [9]) := by
  have h := c5_decode_addnl.2.2.1 [1, 2] [9] rfl
  simpa [beVal] using h

/-- Claim C6 (code bug): encode_addnl only succeeds in the 0-byte case
over an empty buffer; for every wider value it panics, because the
source copies the 1, 2 or 4 to_be_bytes into the full 8-byte scratch
with copy_from_slice (length mismatch), and in the 8-byte case the final
copy into the output buffer demands a buffer of exactly length 8. -/
theorem c6_encode_addnl_widths :
    encode_addnl 23 [] = .ok ([], 0)
    ∧ encode_addnl 24 [] = .error .panicked
    ∧ encode_addnl 24 [0] = .error .panicked
    ∧ encode_addnl 300 [] = .error .panicked
    ∧ encode_addnl 70000 [] = .error .panicked
    ∧ encode_addnl 4294967296 [] = .error .panicked :=
  ⟨rfl, rfl, rfl, rfl, rfl, rfl⟩

/-- Claim C7 (code bug): encoding a list nested to depth 1000 (999
wrappers around an empty list) does not succeed as claimed; it panics at
the very first level in the buffer copy of encode_addnl, before the
recursion limit could ever matter. -/
theorem c7_depth1000_encode :
    do_encode 3 (nestedCbor 999) [] 1 = .error .panicked := by
  have h : (999 : Nat) = 998 + 1 := by norm_num
  rw [h]
  rfl

/-- Claim C8 (code bug): away from the boundary the Key conversions
behave as claimed (minus 1 corresponds to stored 0, minus 5 to stored 4,
a stored value just above i64 range fails with a conversion error), but
at the boundary the code panics instead of returning a conversion error:
Key::N64(i64::MIN) overflows in key.abs(), and the reverse direction on
stored u64::MAX overflows in key + 1. -/
theorem c8_key_boundary :
    cborOfKey (.n64 (-(2 ^ 63))) = .error .panicked
    ∧ keyOfCbor (.major1 (.tiny 0) (2 ^ 64 - 1)) = .error .panicked
    ∧ cborOfKey (.n64 (-1)) = .ok (.major1 (.tiny 0) 0)
    ∧ keyOfCbor (.major1 (.tiny 0) 0) = .ok (.n64 (-1))
    ∧ cborOfKey (.n64 (-5)) = .ok (.major1 (.tiny 4) 4)
    ∧ keyOfCbor (.major1 (.tiny 0) (2 ^ 63)) = .error .failConvert :=
  ⟨rfl, rfl, rfl, rfl, rfl, rfl⟩

/-- Claim C9 (code bug): a Break byte in an indefinite map terminates
nothing, at either position.  Both the value-position Break (after key
1) and the key-position Break fail with the structural FailCbor error
raised by SimpleValue.decode on the Indefinite descriptor, not by
terminating the loop and not through key conversion. -/
theorem c9_map_break_positions :
    do_decode 8 1 [0xBF, 0x01, 0xFF] = .error .failCbor
    ∧ do_decode 8 1 [0xBF, 0xFF] = .error .failCbor :=
  ⟨rfl, rfl⟩

/-- Claim C10: a definite-length text item decodes successfully for every
byte payload of the stated length, storing the raw bytes without UTF-8
validation (shown for all tiny-header lengths and all one-byte-header
lengths), and UTF-8 validity is checked only when such a text value is
converted to a map Key, where invalid UTF-8 fails with a conversion
error. -/
theorem c10_text_raw :
    (∀ (f : Nat) (bs rest : List Nat), bs.length ≤ 23 →
      do_decode (f + 1) 1 ((0x60 + bs.length) :: (bs ++ rest)) =
        .ok (.major3 (.tiny bs.length) bs, rest))
    ∧ (∀ (f : Nat) (bs rest : List Nat), bs.length ≤ 255 →
      do_decode (f + 1) 1 (0x78 :: bs.length :: (bs ++ rest)) =
        .ok (.major3 .u8 bs, rest))
    ∧ (∀ (i : Info) (bs : List Nat),
      keyOfCbor (.major3 i bs) =
        if validUtf8 bs then .ok (.text bs) else .error .failConvert) := by
  refine ⟨?_, ?_, fun i bs => rfl⟩
  · intro f bs rest h
    have h1 : (96 + bs.length) % 32 = bs.length := by omega
    have h2 : (96 + bs.length) % 256 / 32 = 3 := by omega
    have ht : (bs ++ rest).take bs.length = bs := List.take_left bs rest
    have hd : (bs ++ rest).drop bs.length = rest := List.drop_left bs rest
    have hz : bs.length - (bs ++ rest).length = 0 := by
      simp [List.length_append]
    simp [do_decode, RECURSION_LIMIT, decode_hdr, readBytes, h1, h2, infoOfCode, h,
      decode_addnl, ht, hd, hz, Except.bind, Bind.bind]
  · intro f bs rest h
    have hb : bs.length % 256 = bs.length := by omega
    have ht : (bs ++ rest).take bs.length = bs := List.take_left bs rest
    have hd : (bs ++ rest).drop bs.length = rest := List.drop_left bs rest
    have hz : bs.length - (bs ++ rest).length = 0 := by
      simp [List.length_append]
    simp [do_decode, RECURSION_LIMIT, decode_hdr, readBytes, infoOfCode,
      decode_addnl, beVal, hb, ht, hd, hz, Except.bind, Bind.bind]

/-- Claim C10 witness: the invalid UTF-8 payload 0xFF decodes fine as a
one-byte text item under both header forms, and its Key conversion
fails. -/
theorem c10_text_raw_witness :
    do_decode 5 1 [0x61, 0xFF] = .ok (.major3 (.tiny 1) [0xFF], [])
    ∧ do_decode 5 1 [0x78, 0x02, 0xC3, 0x28] = .ok (.major3 .u8 [0xC3, 0x28], [])
    ∧ keyOfCbor (.major3 (.tiny 1) [0xFF]) = .error .failConvert := by
  refine ⟨?_, ?_, ?_⟩
  · have h := c10_text_raw.1 4 [0xFF] [] (by norm_num)
    simpa using h
  · have h := c10_text_raw.2.1 4 [0xC3, 0x28] [] (by norm_num)
    simpa using h
  · have h := c10_text_raw.2.2 (.tiny 1) [0xFF]
    have hv : validUtf8 [0xFF] = false := rfl
    simpa [hv] using h
